import Mathlib

/-!
Shallow embedding of the `hryer/private-blockchain` repository:
the `Block` class (`src/block.js`) and the `Blockchain` class
(chain store with `_addBlock`, `submitStar`, `validateChain`,
`getStarsByWalletAddress`, `getBlockByHeight`, `getChainHeight`).

Modelling conventions, stated once here:
* JavaScript values that may be `null` or a string are `Option String`.
* `SHA256` is the external, opaque, collision-resistant digest primitive;
  following the standard idealization we model it as an injective function
  on its input text (tagging the serialized preimage).  Only injectivity
  and determinism of the digest are ever used.
* `JSON.stringify(block)` serializes the five own fields of a block in
  insertion order (`hash`, `height`, `body`, `time`, `previousBlockHash`);
  we rebuild that text concretely, so two blocks serialize equally iff the
  serialized field tuples are equal.
* The hex/JSON payload encoding (`Buffer(JSON.stringify(data)).toString('hex')`
  and `JSON.parse(hex2ascii(body))`) is an external, round-trip-exact codec;
  we model the encoded body structurally as a key/value token list, an
  injective image of the payload object with a concrete partial inverse.
* Promise resolution/rejection is an explicit result constructor; a
  rejection that is swallowed by a trailing `.catch((e) => e)` is still
  recorded by its own constructor so that the distinct control paths stay
  distinguishable.
* The current clock is passed in as `nowMs : Nat`, the value of
  `new Date().getTime()`.
-/

namespace PrivateBlockchain

/-- Payload object stored (encoded) in a block's body: the genesis payload
`\x7bdata: 'Genesis Block'\x7d` or a registered star `\x7bowner, star\x7d`.
The star itself is opaque to the core and modelled as a string token. -/
inductive PayloadObj where
  | genesisData (s : String)
  | ownerStar (owner : String) (star : String)
deriving DecidableEq, Repr

/-- Model of `Buffer(JSON.stringify(data)).toString('hex')` from the Block
constructor: a structural, injective encoding of the payload object into the
stored body. -/
def encodeBody : PayloadObj → List String
  | .genesisData s => ["data", s]
  | .ownerStar o st => ["owner", o, "star", st]

/-- Model of `JSON.parse(hex2ascii(body))`: the concrete partial inverse of
`encodeBody`; `none` models a `JSON.parse` failure on a body that is not a
valid encoding. -/
def decodeBody : List String → Option PayloadObj
  | ["data", s] => some (.genesisData s)
  | ["owner", o, "star", st] => some (.ownerStar o st)
  | _ => none

/-- The JavaScript value held in a block's `time` field: the constructor
stores the number `0`; sealing in `_addBlock` stores a string (the sliced
millisecond clock).  Strings and numbers are distinct JS values. -/
inductive TimeVal where
  | num (n : Int)
  | str (s : String)
deriving DecidableEq, Repr

/-- Whether the stored time value is a JS number. -/
def TimeVal.isNumber : TimeVal → Bool
  | .num _ => true
  | .str _ => false

/-- One block of the chain, with the five fields set by the `Block`
constructor, in insertion order: `hash`, `height`, `body`, `time`,
`previousBlockHash`. -/
structure Block where
  hash : Option String
  height : Int
  body : List String
  time : TimeVal
  previousBlockHash : Option String
deriving DecidableEq, Repr

/-- `new Block(data)`: `hash = null`, `height = 0`, `body` is the encoded
payload, `time = 0` (a number), `previousBlockHash = null`. -/
def Block.construct (data : PayloadObj) : Block :=
  { hash := none
    height := 0
    body := encodeBody data
    time := .num 0
    previousBlockHash := none }

/-- JSON text of a string-or-null field. -/
def serOptStr : Option String → String
  | none => "null"
  | some s => "\"" ++ s ++ "\""

/-- JSON text of the `time` field (number unquoted, string quoted). -/
def serTime : TimeVal → String
  | .num n => toString n
  | .str s => "\"" ++ s ++ "\""

/-- Text of the stored body inside the serialized block (the hex text in the
source; here the injective token rendering of the structural encoding,
comma-interleaved). -/
def serBody : List String → String
  | [] => ""
  | [s] => s
  | s :: rest => s ++ "," ++ serBody rest

/-- `JSON.stringify(block)` as evaluated in `_addBlock`, over all five own
fields in insertion order (the `hash` field — still `null` at that point for
freshly constructed blocks — is part of the serialized text). -/
def stringifyFullBlock (b : Block) : String :=
  "\x7b\"hash\":" ++ serOptStr b.hash ++
  ",\"height\":" ++ toString b.height ++
  ",\"body\":\"" ++ serBody b.body ++
  "\",\"time\":" ++ serTime b.time ++
  ",\"previousBlockHash\":" ++ serOptStr b.previousBlockHash ++ "\x7d"

/-- `JSON.stringify(currentData)` as evaluated in `Block.validate`, over the
four fields `height`, `body`, `time`, `previousBlockHash` — the `hash` field
is omitted from the recomputation input. -/
def stringifyNoHash (b : Block) : String :=
  "\x7b\"height\":" ++ toString b.height ++
  ",\"body\":\"" ++ serBody b.body ++
  "\",\"time\":" ++ serTime b.time ++
  ",\"previousBlockHash\":" ++ serOptStr b.previousBlockHash ++ "\x7d"

/-- `SHA256(s).toString()`: the external collision-resistant digest,
idealized as an injective tagging of its input text. -/
def SHA256 (s : String) : String := "sha256:" ++ s

/-- Decidable equality for promise outcomes (`Except`), used to evaluate the
model on concrete inputs. -/
instance {ε α : Type} [DecidableEq ε] [DecidableEq α] : DecidableEq (Except ε α)
  | .ok a, .ok b =>
    if h : a = b then isTrue (by rw [h]) else isFalse (by intro hc; cases hc; exact h rfl)
  | .ok _, .error _ => isFalse (by intro hc; cases hc)
  | .error _, .ok _ => isFalse (by intro hc; cases hc)
  | .error a, .error b =>
    if h : a = b then isTrue (by rw [h]) else isFalse (by intro hc; cases hc; exact h rfl)

/-- `Block.validate()`: recomputes the digest over the four fields with the
`hash` field treated as absent and compares to the stored `hash`.
`resolve(true)` when equal is `.ok true`; when different the code runs
`reject(false)`, which is `.error false` — a rejection, not a resolved
`false`. -/
def Block.validate (b : Block) : Except Bool Bool :=
  if b.hash = some (SHA256 (stringifyNoHash b)) then .ok true else .error false

/-- Result of `Block.getBData()`: the parsed payload object
(`JSON.parse(hex2ascii(this.body))`) for blocks with nonzero height, the
returned string `"Error: Genesis Block"` for height 0, or a `JSON.parse`
throw on an undecodable body. -/
inductive BDataResult where
  | obj (p : PayloadObj)
  | errGenesis (s : String)
  | parseFailure
deriving DecidableEq, Repr

/-- The JS expression `data.owner`: defined only when the decoded data is an
owner/star object; `undefined` (here `none`) on the genesis object, on the
genesis error string, and on a parse failure (in the source, a parse failure
throws out of the surrounding callback, which likewise never yields an
owner). -/
def BDataResult.ownerField : BDataResult → Option String
  | .obj (.ownerStar o _) => some o
  | _ => none

/-- `Block.getBData()`:
`(this.height !== 0) ? JSON.parse(hex2ascii(this.body)) : "Error: Genesis Block"`. -/
def Block.getBData (b : Block) : BDataResult :=
  if b.height ≠ 0 then
    match decodeBody b.body with
    | some p => .obj p
    | none => .parseFailure
  else .errGenesis "Error: Genesis Block"

/-- The chain store: `this.chain` and `this.height` of the `Blockchain`
class.  The constructor starts from `chain = []`, `height = -1`. -/
structure Blockchain where
  chain : List Block
  height : Int
deriving DecidableEq, Repr

/-- `getChainHeight()`: resolves with `this.height`. -/
def Blockchain.getChainHeight (bc : Blockchain) : Int := bc.height

/-- `getBlockByHeight(height)`: `this.chain.find(p => p.height === height)`,
resolving with the block or with `null`. -/
def Blockchain.getBlockByHeight (bc : Blockchain) (height : Int) : Option Block :=
  bc.chain.find? (fun p => p.height = height)

/-- `s.slice(0, -3)`: the text with its last three characters dropped
(structurally recursive counterpart of `String.dropRight`). -/
def sliceDropLast3 (s : String) : String :=
  ⟨s.data.take (s.data.length - 3)⟩

/-- `new Date().getTime().toString().slice(0, -3)`: the decimal text of the
millisecond clock with its last three characters dropped (the seconds count,
as a string, for a clock value of at least four digits). -/
def jsSecString (nowMs : Nat) : String :=
  sliceDropLast3 (toString nowMs)

/-- The longest digit prefix of a character list. -/
def digitPrefix : List Char → List Char
  | [] => []
  | c :: rest => if c.isDigit then c :: digitPrefix rest else []

/-- Decimal value of a digit list (most significant first). -/
def natOfDigits : List Char → Nat → Nat
  | [], acc => acc
  | c :: rest, acc => natOfDigits rest (acc * 10 + (c.toNat - 48))

/-- `parseInt(s)` restricted to the shapes reached here: the value of the
longest digit prefix, or `none` for `NaN` when there is no digit prefix. -/
def jsParseIntStr (s : String) : Option Int :=
  match digitPrefix s.data with
  | [] => none
  | ds => some (Int.ofNat (natOfDigits ds 0))

/-- `message.split(':')`: split at every colon, keeping empty fields
(structurally recursive counterpart of `String.splitOn ":"`). -/
def splitColonChars : List Char → List (List Char)
  | [] => [[]]
  | c :: rest =>
    let r := splitColonChars rest
    if c = ':' then [] :: r
    else
      match r with
      | h :: t => (c :: h) :: t
      | [] => [[c]]

/-- `message.split(':')` as a list of strings. -/
def jsSplitColon (s : String) : List String :=
  (splitColonChars s.data).map (fun cs => ⟨cs⟩)

/-- `parseInt` applied to a possibly-`undefined` argument
(`parseInt(undefined)` is `NaN`). -/
def jsParseIntOpt : Option String → Option Int
  | none => none
  | some s => jsParseIntStr s

/-- Observable outcome of the `_addBlock` promise (after its trailing
`.catch((e) => e)`, every path fulfils):
* `.ok b` — the normal path: block pushed, `this.height` incremented,
  `resolve(block)`;
* `.inconsistent b` — the `reject(block)` path taken when the post-push
  height check fails (block already pushed, height not incremented; the
  `.catch` turns the rejection into a fulfilment with the block);
* `.typeError` — `prevBlock` was `null`, so `prevBlock.hash` threw before
  any mutation of the chain (caught by the `.catch`). -/
inductive AddOutcome where
  | ok (b : Block)
  | inconsistent (b : Block)
  | typeError
deriving DecidableEq, Repr

/-- The sealed block's `time` as recorded in the outcome, when one exists. -/
def addOutcomeTime : AddOutcome → Option TimeVal
  | .ok b => some b.time
  | .inconsistent b => some b.time
  | .typeError => none

/-- `_addBlock(block)`: links to the predecessor when the chain is non-empty
(via `getBlockByHeight(this.height)`), assigns `height`, the sliced clock
string as `time`, then `hash = SHA256(JSON.stringify(block))` — serialized
with the block's pre-assignment `hash` value still in place — pushes the
mutated block, and finally increments `this.height` when the post-push check
`this.height !== this.chain.length` passes. -/
def Blockchain.addBlock (bc : Blockchain) (block : Block) (nowMs : Nat) :
    AddOutcome × Blockchain :=
  let linked : Option Block :=
    if bc.chain.length > 0 then
      match bc.getBlockByHeight bc.height with
      | none => none
      | some prevBlock => some { block with previousBlockHash := prevBlock.hash }
    else some block
  match linked with
  | none => (.typeError, bc)
  | some b1 =>
    let b2 : Block :=
      { b1 with height := (bc.chain.length : Int), time := .str (jsSecString nowMs) }
    let sealed : Block := { b2 with hash := some (SHA256 (stringifyFullBlock b2)) }
    let chain2 := bc.chain ++ [sealed]
    if bc.height ≠ (chain2.length : Int) then
      (.ok sealed, { chain := chain2, height := bc.height + 1 })
    else
      (.inconsistent sealed, { chain := chain2, height := bc.height })

/-- `initializeChain()`: when `height === -1`, builds the genesis block
`new Block(\x7bdata: 'Genesis Block'\x7d)` and runs `_addBlock` on it. -/
def Blockchain.initializeChain (bc : Blockchain) (nowMs : Nat) : Blockchain :=
  if bc.height = -1 then
    (bc.addBlock (Block.construct (.genesisData "Genesis Block")) nowMs).2
  else bc

/-- A freshly constructed store: `chain = []`, `height = -1`, then the
constructor's `initializeChain()` call. -/
def newBlockchain (nowMs : Nat) : Blockchain :=
  Blockchain.initializeChain { chain := [], height := -1 } nowMs

/-- One entry of the `errorLog` array produced by `validateChain`. -/
structure ChainError where
  prevHash : Option String
  blockPrevHash : Option String
  message : String
deriving DecidableEq, Repr

/-- The `forEach` body of `validateChain`: for each block, compare its
`previousBlockHash` with the running `prevHash` (pushing a link error when
different), then unconditionally advance `prevHash` to `block.hash`, then
evaluate `await block.validate() === false`.  `block.validate()` fulfils
only with `true` and otherwise rejects, so the tamper arm (`.ok false`)
can never push; a rejection aborts the callback after this point without
touching the log. -/
def validateChainGo : List Block → Option String → List ChainError → List ChainError
  | [], _, log => log
  | block :: rest, prevHash, log =>
    let log1 :=
      if block.previousBlockHash ≠ prevHash then
        log ++ [{ prevHash := prevHash
                  blockPrevHash := block.previousBlockHash
                  message := "error: prevHash and blockPrevHash not valid" }]
      else log
    let log2 :=
      match block.validate with
      | .ok false =>
        log1 ++ [{ prevHash := block.hash
                   blockPrevHash := block.previousBlockHash
                   message := "error: data has been modified or data it's not valid" }]
      | _ => log1
    validateChainGo rest block.hash log2

/-- `validateChain()`: scan `this.chain` with `prevHash` starting at `null`,
resolving with the collected `errorLog`. -/
def Blockchain.validateChain (bc : Blockchain) : List ChainError :=
  validateChainGo bc.chain none []

/-- Observable outcome of the `submitStar` promise:
* `.chainErrors errs` — `resolve(validateChain)` from the corrupt-chain
  branch;
* `.block r` — `resolve(res)` with the result of `await _addBlock(...)`;
* `.notVerified` — `reject('error: You are not verified')`;
* `.timeout` — `reject('error: message timeout, try again to requestValidation ')`.
The two rejections are converted into fulfilments with the message string by
the trailing `.catch`, but remain distinct control paths. -/
inductive SubmitOutcome where
  | chainErrors (errs : List ChainError)
  | block (r : AddOutcome)
  | notVerified
  | timeout
deriving DecidableEq, Repr

/-- Whether the outcome came from the `_addBlock` path. -/
def SubmitOutcome.isAppend : SubmitOutcome → Bool
  | .block _ => true
  | _ => false

/-- `const validateChain = self.validateChain();` binds the pending Promise
itself, not its resolved array.  A Promise object has no `length` property,
so `validateChain.length` is `undefined` and `undefined > 0` evaluates to
`false`: the guard of the corrupt-chain branch. -/
def promiseLengthGtZero : Bool := false

/-- `submitStar(address, message, signature, star)`.  The external
`bitcoinMessage.verify(message, address, signature)` capability is passed in
as its boolean outcome `verified`.  `diffTime` is
`parseInt(now-string) - parseInt(message.split(':')[1])`, `none` standing
for `NaN` (any comparison with `NaN` is false, so `NaN / 60 <= 5` takes the
timeout branch); for integer `d`, `d / 60 <= 5` under exact JS float
division is `d ≤ 300`. -/
def Blockchain.submitStar (bc : Blockchain) (address message : String)
    (verified : Bool) (star : String) (nowMs : Nat) : SubmitOutcome × Blockchain :=
  if promiseLengthGtZero then
    (.chainErrors bc.validateChain, bc)
  else
    let diffTime : Option Int :=
      match jsParseIntStr (jsSecString nowMs),
            jsParseIntOpt ((jsSplitColon message).get? 1) with
      | some a, some b => some (a - b)
      | _, _ => none
    match diffTime with
    | none => (.timeout, bc)
    | some d =>
      if d ≤ 300 then
        if verified then
          let (r, bc2) := bc.addBlock (Block.construct (.ownerStar address star)) nowMs
          (.block r, bc2)
        else (.notVerified, bc)
      else (.timeout, bc)

/-- `if (stars)` on the collected array: a JS array is truthy, even when
empty. -/
def jsArrayTruthy : Bool := true

/-- `getStarsByWalletAddress(address)`: collect `getBData()` of every block
whose decoded `owner` field equals `address`, then resolve with the array
(the `reject('data not found')` branch is guarded by the truthiness of the
array). -/
def Blockchain.getStarsByWalletAddress (bc : Blockchain) (address : String) :
    Except String (List BDataResult) :=
  let stars := bc.chain.foldl
    (fun acc b =>
      let data := b.getBData
      if data.ownerField = some address then acc ++ [data] else acc)
    []
  if jsArrayTruthy then .ok stars else .error "data not found"

/-- Specification-side running expected value of the scan: the value
`prevHash` holds when `validateChain` reaches position `j`, starting from
`prev`; since the scan advances unconditionally, it is the stored hash of
the block at position `j - 1`. -/
def expectedFrom (prev : Option String) (bs : List Block) : Nat → Option String
  | 0 => prev
  | j + 1 =>
    match bs.get? j with
    | some b => b.hash
    | none => none

/-- Whether position `j` of the scan (running value seeded with `prev`)
trips the link check. -/
def mismatchFrom (bs : List Block) (prev : Option String) (j : Nat) : Bool :=
  match bs.get? j with
  | none => false
  | some b => decide (b.previousBlockHash ≠ expectedFrom prev bs j)

/-- Whether position `j` of the full `validateChain` scan (seeded with
`null`) trips the link check. -/
def linkMismatchAt (bs : List Block) (j : Nat) : Bool :=
  mismatchFrom bs none j

/-- Number of link errors the scan pushes, as a recursive count. -/
def countMismatch : List Block → Option String → Nat
  | [], _ => 0
  | b :: rest, prev =>
    (if b.previousBlockHash ≠ prev then 1 else 0) + countMismatch rest b.hash

/-- A clock instant used by the concrete test chains (milliseconds). -/
def t0 : Nat := 1600000000123

/-- A later clock instant for the second append. -/
def t1 : Nat := 1600000200123

/-- A store freshly initialized at `t0`: genesis block only. -/
def freshBC : Blockchain := newBlockchain t0

/-- The fresh store after one further honest append at `t1`. -/
def bc2 : Blockchain :=
  (freshBC.addBlock (Block.construct (.ownerStar "owner1" "starA")) t1).2

/-- Corrupt the second block's `previousBlockHash` in place, leaving every
other field and block untouched. -/
def corruptLink : List Block → List Block
  | b0 :: b1 :: rest => b0 :: { b1 with previousBlockHash := some "deadbeef" } :: rest
  | other => other

/-- `bc2` with its one non-genesis link corrupted. -/
def corruptBC : Blockchain := { bc2 with chain := corruptLink bc2.chain }

/-- A hand-tampered block whose stored digest cannot match any
recomputation. -/
def c3Block : Block :=
  { hash := some "deadbeef"
    height := 1
    body := encodeBody (.ownerStar "o" "s")
    time := .str "1600000000"
    previousBlockHash := none }

/-- A genesis-shaped block as produced by the constructor (height 0). -/
def gB : Block := Block.construct (.genesisData "Genesis Block")

/-- A constructor-produced star block manually placed at height 1. -/
def sB : Block := { Block.construct (.ownerStar "ow" "st") with height := 1 }

end PrivateBlockchain

namespace PrivateBlockchain

/-! ## Helper lemmas -/

/-- `Block.validate` either fulfils with `true` or rejects with `false`;
it never fulfils with `false`. -/
theorem validate_cases (b : Block) :
    b.validate = .ok true ∨ b.validate = .error false := by
  unfold Block.validate
  split <;> simp

/-- The tamper arm of the scan never fires: the post-validate log equals the
post-link-check log. -/
theorem validateChainGo_tamper_skip (b : Block) (log1 : List ChainError) :
    (match b.validate with
      | .ok false =>
        log1 ++ [{ prevHash := b.hash
                   blockPrevHash := b.previousBlockHash
                   message := "error: data has been modified or data it's not valid" }]
      | _ => log1) = log1 := by
  rcases validate_cases b with h | h <;> rw [h]

/-- Length of the scan output: the incoming log plus one entry per link
mismatch, the running value advancing to the block's stored hash at every
step. -/
theorem validateChainGo_length (bs : List Block) :
    ∀ (prev : Option String) (log : List ChainError),
      (validateChainGo bs prev log).length = log.length + countMismatch bs prev := by
  induction bs with
  | nil => intro prev log; simp [validateChainGo, countMismatch]
  | cons b rest ih =>
    intro prev log
    show (validateChainGo rest b.hash _).length = _
    rw [validateChainGo_tamper_skip]
    by_cases h : b.previousBlockHash ≠ prev
    · rw [if_pos h, ih]
      simp [countMismatch, if_pos h]
      omega
    · rw [if_neg h, ih]
      simp [countMismatch, if_neg h]

end PrivateBlockchain

namespace PrivateBlockchain

/-! ## C1, C2, C3: concrete evaluations of the code -/

/-- C1: on chains built only by initialization and honest appends,
`validateChain()` does return an empty error sequence — but not for the
reason the claim states: every stored block FAILS its own digest
recomputation (`Block.validate` rejects with `false`), because `_addBlock`
computed the stored hash over the serialization that still contains the
`hash: null` field while `validate` recomputes without it.  The scan comes
back empty only because its tamper arm compares against a value `validate`
never produces.  Shown here on the freshly initialized store and on the
store after one further honest append. -/
theorem honest_chain_empty_log_yet_blocks_fail_self_check :
    freshBC.validateChain = [] ∧
    bc2.validateChain = [] ∧
    freshBC.chain.map Block.validate = [.error false] ∧
    bc2.chain.map Block.validate = [.error false, .error false] := by
  refine ⟨by decide, by decide, by decide, by decide⟩

/-- C2: the corrupt-chain guard of `submitStar` is dead code.  On a store
whose validator reports one link error, `submitStar` with a fresh message
and a verifying signature does not surface the errors: it proceeds to the
timestamp check and appends a block, because `validateChain.length` is read
off the pending Promise (`undefined`), and `undefined > 0` is `false`. -/
theorem corrupt_chain_not_short_circuited :
    (corruptBC.validateChain).length = 1 ∧
    ((corruptBC.submitStar "a2" "a2:1600000300:starRegistry" true "s2"
        1600000400123).1).isAppend = true ∧
    (corruptBC.submitStar "a2" "a2:1600000300:starRegistry" true "s2"
        1600000400123).2.chain.length = corruptBC.chain.length + 1 := by
  refine ⟨by decide, by decide, by decide⟩

/-- C3: on a block whose recomputed digest differs from the stored one,
`Block.validate()` does not return an ordinary `false`: it rejects the
promise with `false` (`reject(false)`), contradicting the method's own
step list ("Resolve true or false"). -/
theorem validate_rejects_instead_of_returning_false :
    c3Block.hash ≠ some (SHA256 (stringifyNoHash c3Block)) ∧
    Block.validate c3Block = .error false := by
  refine ⟨by decide, by decide⟩

end PrivateBlockchain

namespace PrivateBlockchain

/-! ## C4: single corrupted link yields exactly one error -/

/-- Stepping the indexed mismatch check past the head block: position
`k + 1` of the scan seeded with `prev` is position `k` of the tail scan
seeded with the head's stored hash — the advancement is unconditional. -/
theorem mismatchFrom_cons (b : Block) (rest : List Block) (prev : Option String)
    (k : Nat) :
    mismatchFrom (b :: rest) prev (k + 1) = mismatchFrom rest b.hash k := by
  cases k with
  | zero => simp [mismatchFrom, expectedFrom]
  | succ m =>
    show mismatchFrom (b :: rest) prev (m + 2) = mismatchFrom rest b.hash (m + 1)
    simp only [mismatchFrom, expectedFrom]
    rfl

/-- When no position below the length trips the link check, the scan pushes
no link error. -/
theorem countMismatch_zero (bs : List Block) :
    ∀ (prev : Option String),
      (∀ k, k < bs.length → mismatchFrom bs prev k = false) →
      countMismatch bs prev = 0 := by
  induction bs with
  | nil => intro prev _; rfl
  | cons b rest ih =>
    intro prev h
    have h0 : mismatchFrom (b :: rest) prev 0 = false := h 0 (by simp)
    have hhead : ¬ b.previousBlockHash ≠ prev := by
      simpa [mismatchFrom, expectedFrom] using h0
    have htail : countMismatch rest b.hash = 0 := by
      refine ih b.hash (fun k hk => ?_)
      have := h (k + 1) (by simpa using Nat.succ_lt_succ hk)
      rwa [mismatchFrom_cons] at this
    simp [countMismatch, if_neg hhead, htail]

/-- When exactly one position below the length trips the link check, the
scan pushes exactly one link error. -/
theorem countMismatch_one (bs : List Block) :
    ∀ (prev : Option String) (i : Nat),
      mismatchFrom bs prev i = true →
      (∀ j, j < bs.length → j ≠ i → mismatchFrom bs prev j = false) →
      countMismatch bs prev = 1 := by
  induction bs with
  | nil =>
    intro prev i h1 _
    simp [mismatchFrom, List.get?] at h1
  | cons b rest ih =>
    intro prev i h1 h2
    cases i with
    | zero =>
      have hhead : b.previousBlockHash ≠ prev := by
        simpa [mismatchFrom, expectedFrom] using h1
      have htail : countMismatch rest b.hash = 0 := by
        refine countMismatch_zero rest b.hash (fun k hk => ?_)
        have := h2 (k + 1) (by simpa using Nat.succ_lt_succ hk) (by simp)
        rwa [mismatchFrom_cons] at this
      simp [countMismatch, if_pos hhead, htail]
    | succ k =>
      have hhead : ¬ b.previousBlockHash ≠ prev := by
        have := h2 0 (by simp) (by simp)
        simpa [mismatchFrom, expectedFrom] using this
      have h1t : mismatchFrom rest b.hash k = true := by
        rwa [mismatchFrom_cons] at h1
      have h2t : ∀ j, j < rest.length → j ≠ k → mismatchFrom rest b.hash j = false := by
        intro j hj hjk
        have := h2 (j + 1) (by simpa using Nat.succ_lt_succ hj) (by omega)
        rwa [mismatchFrom_cons] at this
      simp [countMismatch, if_neg hhead, ih b.hash k h1t h2t]

/-- C4: during the `validateChain` scan the running expected value is
advanced to the current block's stored hash on every iteration, whether or
not a link error was just emitted (captured by `mismatchFrom`, whose step
rule is unconditional); consequently a chain whose only link defect sits at
one position yields exactly one link-mismatch error, with no spurious errors
over the consistent suffix. -/
theorem validateChain_single_corrupted_link (bc : Blockchain) (i : Nat)
    (h1 : linkMismatchAt bc.chain i = true)
    (h2 : ∀ j, j < bc.chain.length → j ≠ i → linkMismatchAt bc.chain j = false) :
    (bc.validateChain).length = 1 := by
  unfold Blockchain.validateChain
  rw [validateChainGo_length]
  simpa using countMismatch_one bc.chain none i h1 h2

/-- Witness for C4 at the concrete corrupted store: the genesis link is
sound, position 1 carries the corrupted `previousBlockHash`, and the scan
reports exactly one error. -/
theorem validateChain_single_corrupted_link_witness :
    (corruptBC.validateChain).length = 1 :=
  validateChain_single_corrupted_link corruptBC 1 (by decide)
    (by decide)

end PrivateBlockchain

namespace PrivateBlockchain

/-! ## C5: submit grows the chain by one on success, else leaves it alone -/

/-- When the predecessor lookup cannot come back `null` (the chain is empty,
or some stored block carries the current height), `_addBlock` pushes exactly
one block onto the chain. -/
theorem addBlock_grows (bc : Blockchain) (b : Block) (nowMs : Nat)
    (hfind : bc.chain = [] ∨ (bc.getBlockByHeight bc.height).isSome = true) :
    ((bc.addBlock b nowMs).2).chain.length = bc.chain.length + 1 := by
  unfold Blockchain.addBlock
  by_cases hlen : bc.chain.length > 0
  · rcases hfind with hnil | hsome
    · rw [hnil] at hlen
      simp at hlen
    · obtain ⟨prev, hprev⟩ := Option.isSome_iff_exists.mp hsome
      simp only [if_pos hlen, hprev]
      split <;> simp
  · simp only [if_neg hlen]
    split <;> simp

/-- C5: for every `submitStar` call on a store whose predecessor lookup is
total, the `_addBlock` path grows the chain by exactly one block, and every
rejecting path (`notVerified`, `timeout`) leaves the store exactly as it
was. -/
theorem submitStar_growth (bc : Blockchain) (address message star : String)
    (verified : Bool) (nowMs : Nat)
    (hfind : bc.chain = [] ∨ (bc.getBlockByHeight bc.height).isSome = true) :
    if ((bc.submitStar address message verified star nowMs).1).isAppend
    then ((bc.submitStar address message verified star nowMs).2).chain.length
          = bc.chain.length + 1
    else (bc.submitStar address message verified star nowMs).2 = bc := by
  simp only [Blockchain.submitStar, promiseLengthGtZero, Bool.false_eq_true, if_false]
  cases hA : jsParseIntStr (jsSecString nowMs) with
  | none => simp [SubmitOutcome.isAppend]
  | some a =>
    cases hB : jsParseIntOpt ((jsSplitColon message).get? 1) with
    | none => simp [SubmitOutcome.isAppend]
    | some b2 =>
      simp only []
      by_cases hd : a - b2 ≤ 300
      · rw [if_pos hd]
        cases verified with
        | false => simp [SubmitOutcome.isAppend]
        | true =>
          simp only [SubmitOutcome.isAppend, if_pos]
          exact addBlock_grows bc _ nowMs hfind
      · rw [if_neg hd]
        simp [SubmitOutcome.isAppend]

/-- Witness for C5 at a concrete store and a fresh, verified submission:
the outcome is an append and the chain grows from one block to two. -/
theorem submitStar_growth_witness :
    if ((freshBC.submitStar "w" "w:1600000000:starRegistry" true "st"
          1600000100123).1).isAppend
    then ((freshBC.submitStar "w" "w:1600000000:starRegistry" true "st"
          1600000100123).2).chain.length = freshBC.chain.length + 1
    else (freshBC.submitStar "w" "w:1600000000:starRegistry" true "st"
          1600000100123).2 = freshBC :=
  submitStar_growth freshBC "w" "w:1600000000:starRegistry" "st" true
    1600000100123 (Or.inr (by decide))

end PrivateBlockchain

namespace PrivateBlockchain

/-! ## C6: genesis payload decoding and round-trip fidelity -/

/-- The body codec round-trips: decoding an encoded payload object recovers
exactly the original object. -/
theorem decodeBody_encodeBody (p : PayloadObj) :
    decodeBody (encodeBody p) = some p := by
  cases p <;> rfl

/-- C6: `getBData()` on a height-0 (genesis) block yields the distinguished
`"Error: Genesis Block"` value, never a decoded payload; on any block of
nonzero height whose body holds an encoded payload it returns exactly that
original object (encode-then-decode is the identity). -/
theorem getBData_genesis_and_roundtrip :
    (∀ b : Block, b.height = 0 → b.getBData = .errGenesis "Error: Genesis Block") ∧
    (∀ (b : Block) (p : PayloadObj), b.height ≠ 0 → b.body = encodeBody p →
      b.getBData = .obj p) := by
  constructor
  · intro b h
    simp [Block.getBData, h]
  · intro b p h hbody
    simp [Block.getBData, h, hbody, decodeBody_encodeBody]

/-- Witness for C6: the constructor-produced genesis block yields the error
value; a star block at height 1 decodes back to its original payload. -/
theorem getBData_genesis_and_roundtrip_witness :
    gB.getBData = .errGenesis "Error: Genesis Block" ∧
    sB.getBData = .obj (.ownerStar "ow" "st") :=
  ⟨getBData_genesis_and_roundtrip.1 gB rfl,
   getBData_genesis_and_roundtrip.2 sB (.ownerStar "ow" "st") (by decide) rfl⟩

/-! ## C7: expired challenge -/

/-- C7: whenever the timestamp parsed out of the message's second
colon-delimited field lies more than 300 seconds (5 minutes) before the
parsed current time, `submitStar` rejects with the timeout message and
leaves the store untouched — for both values of the external signature
verdict, which is never consulted. -/
theorem submitStar_challenge_expired (bc : Blockchain)
    (address message star : String) (verified : Bool) (nowMs : Nat)
    (nowSec ts : Int)
    (hok : bc.validateChain = [])
    (hnow : jsParseIntStr (jsSecString nowMs) = some nowSec)
    (hts : jsParseIntOpt ((jsSplitColon message).get? 1) = some ts)
    (hdiff : nowSec - ts > 300) :
    bc.submitStar address message verified star nowMs = (.timeout, bc) := by
  simp only [Blockchain.submitStar, promiseLengthGtZero, Bool.false_eq_true,
    if_false, hnow, hts]
  rw [if_neg (by omega)]

/-- Witness for C7, the 10-minute scenario: a message stamped 600 seconds
before the clock is rejected as expired on the fresh store, even with a
verifying signature. -/
theorem submitStar_challenge_expired_witness :
    freshBC.submitStar "w7" "w7:1600000000:starRegistry" true "s7"
        1600000600123 = (.timeout, freshBC) :=
  submitStar_challenge_expired freshBC "w7" "w7:1600000000:starRegistry" "s7"
    true 1600000600123 1600000600 1600000000 (by decide) (by decide)
    (by decide) (by decide)

end PrivateBlockchain

namespace PrivateBlockchain

/-! ## C8: height tracks length - 1 -/

/-- C8: a freshly initialized store holds exactly the genesis block and
reports chain height 0; and one `_addBlock` step preserves the invariant
`height = length(chain) - 1` (the pre-initialization store being the only
state at `-1`). -/
theorem height_tracks_length (bc : Blockchain) (b : Block) (nowMs t : Nat)
    (hinv : bc.height = (bc.chain.length : Int) - 1) :
    ((bc.addBlock b nowMs).2).height
        = (((bc.addBlock b nowMs).2).chain.length : Int) - 1 ∧
    (newBlockchain t).getChainHeight = 0 ∧ (newBlockchain t).chain.length = 1 := by
  refine ⟨?_, by rfl, by rfl⟩
  unfold Blockchain.addBlock
  by_cases hlen : bc.chain.length > 0
  · cases hf : bc.getBlockByHeight bc.height with
    | none => simpa only [if_pos hlen, hf] using hinv
    | some prev =>
      simp only [if_pos hlen, hf]
      split
      · simp only [List.length_append, List.length_singleton]
        push_cast
        omega
      · rename_i hcond
        exfalso
        rw [hinv] at hcond
        simp only [List.length_append, List.length_singleton] at hcond
        push_cast at hcond
        omega
  · simp only [if_neg hlen]
    have hnil : bc.chain.length = 0 := by omega
    split
    · simp only [List.length_append, List.length_singleton]
      push_cast
      omega
    · rename_i hcond
      exfalso
      rw [hinv] at hcond
      simp only [List.length_append, List.length_singleton] at hcond
      push_cast at hcond
      omega

/-- Witness for C8: from the empty pre-initialization store, one genesis
append lands on `height = 0 = length - 1`; the fresh store reports height 0
over its single genesis block. -/
theorem height_tracks_length_witness :
    ((Blockchain.mk [] (-1)).addBlock gB t0).2.height
        = ((((Blockchain.mk [] (-1)).addBlock gB t0).2).chain.length : Int) - 1 ∧
    (newBlockchain t0).getChainHeight = 0 ∧ (newBlockchain t0).chain.length = 1 :=
  height_tracks_length (Blockchain.mk [] (-1)) gB t0 t0 (by decide)

/-! ## C9: the stored created-at value -/

/-- C9 counterexample: the value stored in the `time` field at append time
is a JS string, not an integer — the freshly initialized store's only block
carries the string `"1600000000"`, on which `isNumber` is false. -/
theorem created_at_stored_as_string :
    (newBlockchain t0).chain.map (fun b => b.time) = [.str "1600000000"] ∧
    (newBlockchain t0).chain.map (fun b => b.time.isNumber) = [false] := by
  refine ⟨by decide, by decide⟩

/-- C9 amended: every block sealed by `_addBlock` stores, in its `time`
field, the decimal string of the seconds count — the millisecond clock's
decimal text with its last three characters dropped — taken from the
current time at append time (unless the predecessor lookup threw before any
sealing happened). -/
theorem addBlock_time_is_seconds_string (bc : Blockchain) (b : Block)
    (nowMs : Nat) :
    addOutcomeTime ((bc.addBlock b nowMs).1) = some (.str (jsSecString nowMs)) ∨
    (bc.addBlock b nowMs).1 = .typeError := by
  unfold Blockchain.addBlock
  by_cases hlen : bc.chain.length > 0
  · cases hf : bc.getBlockByHeight bc.height with
    | none => right; simp [if_pos hlen, hf]
    | some prev =>
      left
      simp only [if_pos hlen, hf]
      split <;> rfl
  · left
    simp only [if_neg hlen]
    split <;> rfl

/-! ## C10: owner lookup is total -/

/-- The star-collecting fold adds nothing when no block of the list decodes
to the queried owner. -/
theorem collect_stars_nil (bs : List Block) (address : String) :
    ∀ acc : List BDataResult,
      (∀ b ∈ bs, (b.getBData).ownerField ≠ some address) →
      bs.foldl
        (fun acc b =>
          let data := b.getBData
          if data.ownerField = some address then acc ++ [data] else acc)
        acc = acc := by
  induction bs with
  | nil => intro acc _; rfl
  | cons b rest ih =>
    intro acc h
    have hb : (b.getBData).ownerField ≠ some address := h b (by simp)
    simp only [List.foldl_cons, if_neg hb]
    exact ih acc (fun x hx => h x (by simp [hx]))

/-- C10: `getStarsByWalletAddress` never takes its `'data not found'`
rejection branch — the collected array is truthy even when empty — and an
address owning no block receives the empty list, not a failure. -/
theorem getStars_never_fails (bc : Blockchain) (address : String) :
    (bc.getStarsByWalletAddress address).isOk = true ∧
    ((∀ b ∈ bc.chain, (b.getBData).ownerField ≠ some address) →
      bc.getStarsByWalletAddress address = .ok []) := by
  constructor
  · simp [Blockchain.getStarsByWalletAddress, jsArrayTruthy, Except.isOk, Except.toBool]
  · intro h
    simp only [Blockchain.getStarsByWalletAddress, jsArrayTruthy, if_true]
    rw [collect_stars_nil bc.chain address [] h]

/-- Witness for C10: on the fresh store, an owner with no blocks gets a
fulfilled empty array, not a rejection. -/
theorem getStars_never_fails_witness :
    (freshBC.getStarsByWalletAddress "nobody").isOk = true ∧
    freshBC.getStarsByWalletAddress "nobody" = .ok [] :=
  ⟨(getStars_never_fails freshBC "nobody").1,
   (getStars_never_fails freshBC "nobody").2 (by decide)⟩

end PrivateBlockchain
